import Mathlib

/-!
Verification development for the LightPulseTrigger firmware
(src/LightPulseTrigger/LightPulseTrigger.ino).

The firmware is shallowly embedded: the trigger state machine, the command
interpreter, the EEPROM calibration slots and the main loop become pure Lean
functions over explicit state.  C `int` values are modelled as `Int` (the
16-bit truncation performed by the EEPROM word interface is modelled
explicitly where it happens); the serial byte stream is a `List Char`; the
analog sampler is a `List Int` of pending readings; serial output is a
`String` (with `Serial.println` emitting a trailing newline).
-/

namespace LightPulseTrigger

/-- The NUL character terminating C strings in the command buffer. -/
def nul : Char := Char.ofNat 0

/-- `#define MAX_CMD_LEN 80` (line 41). -/
def MAX_CMD_LEN : Nat := 80

/-- `const int pulsesToSkip = 49` (line 34): the decimation constant used by
the main loop.  `detectTrigger` below takes the skip count as a parameter so
that other configured values of this constant can also be analysed. -/
def pulsesToSkip : Int := 49

/-- The trigger detector's mutable state: `triggerState` (line 59, called
`active` here) and `counter` (line 60, called `count` here). -/
structure TrigState where
  active : Bool
  count : Int
  deriving DecidableEq, Repr

/-- Lines 111-116 of `detectTrigger`: the hysteresis computation of the local
variable `nextState` from the current `triggerState` and the sample `val`.
`val > high` is tested first; `val < low` only in the `else if`. -/
def nextState (low high : Int) (cur : Bool) (val : Int) : Bool :=
  if val > high then true
  else if val < low then false
  else cur

/-- Lines 109-148: one evaluation of `detectTrigger` on sample `val`.
Returns the updated state and the list of values printed by
`Serial.println` (`0` for a reported rising edge, `1` for a reported falling
edge).  On a rising edge the counter is incremented first and the incremented
value compared against the skip count; on a reported falling edge the counter
is reset to `0`, on a skipped falling edge it is left unchanged. -/
def detectTrigger (low high skip : Int) (s : TrigState) (val : Int) :
    TrigState × List Nat :=
  if nextState low high s.active val = s.active then (s, [])
  else if nextState low high s.active val then
    if s.count + 1 > skip then (⟨true, s.count + 1⟩, [0])
    else (⟨true, s.count + 1⟩, [])
  else
    if s.count > skip then (⟨false, 0⟩, [1])
    else (⟨false, s.count⟩, [])

/-- Iterate `detectTrigger` over a list of samples, concatenating the
reported edges in order. -/
def runDetect (low high skip : Int) (s : TrigState) :
    List Int → TrigState × List Nat
  | [] => (s, [])
  | v :: vs =>
    ((runDetect low high skip (detectTrigger low high skip s v).1 vs).1,
     (detectTrigger low high skip s v).2 ++
       (runDetect low high skip (detectTrigger low high skip s v).1 vs).2)

/-- Number of physical edges (state flips of the hysteresis comparator) a
sample list produces from a given starting state. -/
def countFlips (low high : Int) (a : Bool) : List Int → Nat
  | [] => 0
  | v :: vs =>
    (if nextState low high a v = a then 0 else 1) +
      countFlips low high (nextState low high a v) vs

/- Equation lemmas for `detectTrigger`, by branch of the source. -/

theorem detect_idle (low high skip : Int) (s : TrigState) (val : Int)
    (h : nextState low high s.active val = s.active) :
    detectTrigger low high skip s val = (s, []) := by
  simp [detectTrigger, h]

theorem detect_rise_emit (low high skip : Int) (s : TrigState) (val : Int)
    (h : nextState low high s.active val = true) (ha : s.active = false)
    (hc : s.count + 1 > skip) :
    detectTrigger low high skip s val = (⟨true, s.count + 1⟩, [0]) := by
  rw [ha] at h
  simp [detectTrigger, ha, h, hc]

theorem detect_rise_skip (low high skip : Int) (s : TrigState) (val : Int)
    (h : nextState low high s.active val = true) (ha : s.active = false)
    (hc : ¬ s.count + 1 > skip) :
    detectTrigger low high skip s val = (⟨true, s.count + 1⟩, []) := by
  rw [ha] at h
  simp [detectTrigger, ha, h, hc]

theorem detect_fall_emit (low high skip : Int) (s : TrigState) (val : Int)
    (h : nextState low high s.active val = false) (ha : s.active = true)
    (hc : s.count > skip) :
    detectTrigger low high skip s val = (⟨false, 0⟩, [1]) := by
  rw [ha] at h
  simp [detectTrigger, ha, h, hc]

theorem detect_fall_skip (low high skip : Int) (s : TrigState) (val : Int)
    (h : nextState low high s.active val = false) (ha : s.active = true)
    (hc : ¬ s.count > skip) :
    detectTrigger low high skip s val = (⟨false, s.count⟩, []) := by
  rw [ha] at h
  simp [detectTrigger, ha, h, hc]

/-- The post-state of `detectTrigger` always carries the hysteresis result. -/
theorem detect_active (low high skip : Int) (s : TrigState) (val : Int) :
    (detectTrigger low high skip s val).1.active =
      nextState low high s.active val := by
  unfold detectTrigger
  split_ifs with h1 h2 h3 h4 <;> simp_all

/-- C1: Hysteresis of the trigger detector: for every sample `val` the next
state is forced to `true` when `val > high`, forced to `false` when
`val < low` (in the `else if`, i.e. when `val ≤ high`), and left equal to the
current state otherwise; in the dead band `low ≤ val ≤ high` the state, the
pulse counter and the output are all unchanged; the state flips to `false`
only on `val < low` and to `true` only on `val > high`. -/
theorem c1_hysteresis :
    (∀ low high skip val (s : TrigState), val > high →
      (detectTrigger low high skip s val).1.active = true) ∧
    (∀ low high skip val (s : TrigState), val ≤ high → val < low →
      (detectTrigger low high skip s val).1.active = false) ∧
    (∀ low high skip val (s : TrigState), low ≤ val → val ≤ high →
      detectTrigger low high skip s val = (s, [])) ∧
    (∀ low high skip val (s : TrigState), s.active = true →
      (detectTrigger low high skip s val).1.active = false → val < low) ∧
    (∀ low high skip val (s : TrigState), s.active = false →
      (detectTrigger low high skip s val).1.active = true → val > high) := by
  refine ⟨?_, ?_, ?_, ?_, ?_⟩
  · intro low high skip val s h
    rw [detect_active]
    simp only [nextState]
    rw [if_pos h]
  · intro low high skip val s h1 h2
    rw [detect_active]
    simp only [nextState]
    rw [if_neg (by omega), if_pos h2]
  · intro low high skip val s h1 h2
    apply detect_idle
    simp only [nextState]
    rw [if_neg (by omega), if_neg (by omega)]
  · intro low high skip val s ha h
    rw [detect_active] at h
    simp only [nextState] at h
    by_cases hh : val > high
    · rw [if_pos hh] at h
      exact absurd h (by simp)
    · by_cases hl : val < low
      · exact hl
      · rw [if_neg hh, if_neg hl, ha] at h
        exact absurd h (by simp)
  · intro low high skip val s ha h
    rw [detect_active] at h
    simp only [nextState] at h
    by_cases hh : val > high
    · exact hh
    · by_cases hl : val < low
      · rw [if_neg hh, if_pos hl] at h
        exact absurd h (by simp)
      · rw [if_neg hh, if_neg hl, ha] at h
        exact absurd h (by simp)

theorem c1_hysteresis_witness :
    ((120 : Int) > 100 ∧ (detectTrigger 80 100 49 ⟨false, 0⟩ 120).1.active = true) ∧
    ((50 : Int) ≤ 100 ∧ (50 : Int) < 80 ∧
      (detectTrigger 80 100 49 ⟨true, 3⟩ 50).1.active = false) ∧
    ((80 : Int) ≤ 90 ∧ (90 : Int) ≤ 100 ∧
      detectTrigger 80 100 49 ⟨true, 3⟩ 90 = (⟨true, 3⟩, [])) ∧
    (50 : Int) < 80 ∧ (120 : Int) > 100 :=
  ⟨⟨by decide, c1_hysteresis.1 80 100 49 120 ⟨false, 0⟩ (by decide)⟩,
   ⟨by decide, by decide,
     c1_hysteresis.2.1 80 100 49 50 ⟨true, 3⟩ (by decide) (by decide)⟩,
   ⟨by decide, by decide,
     c1_hysteresis.2.2.1 80 100 49 90 ⟨true, 3⟩ (by decide) (by decide)⟩,
   c1_hysteresis.2.2.2.1 80 100 49 50 ⟨true, 3⟩ rfl (by decide),
   c1_hysteresis.2.2.2.2 80 100 49 120 ⟨false, 0⟩ rfl (by decide)⟩

/-- C9: The `val > high` test has priority over the `val < low` test: whenever
`val > high`, the next state is `true` even if `val < low` also holds (possible
only with inverted thresholds `low > high`); with `low > high` the detector is
neither stuck always-active nor always-inactive: it goes active on any sample
strictly above `high` and inactive on any sample strictly below `low` that is
not above `high`. -/
theorem c9_threshold_priority :
    (∀ low high skip val (s : TrigState), val > high → val < low →
      (detectTrigger low high skip s val).1.active = true) ∧
    (∀ low high skip val (s : TrigState), low > high → val > high →
      (detectTrigger low high skip s val).1.active = true) ∧
    (∀ low high skip val (s : TrigState), low > high → val < low → val ≤ high →
      (detectTrigger low high skip s val).1.active = false) := by
  refine ⟨?_, ?_, ?_⟩
  · intro low high skip val s hh _
    rw [detect_active]
    simp only [nextState]
    rw [if_pos hh]
  · intro low high skip val s _ hh
    rw [detect_active]
    simp only [nextState]
    rw [if_pos hh]
  · intro low high skip val s _ hl hh
    rw [detect_active]
    simp only [nextState]
    rw [if_neg (by omega), if_pos hl]

theorem c9_threshold_priority_witness :
    ((5 : Int) > 0 ∧ (5 : Int) < 10 ∧
      (detectTrigger 10 0 49 ⟨false, 0⟩ 5).1.active = true) ∧
    ((10 : Int) > 0 ∧
      (detectTrigger 10 0 49 ⟨false, 0⟩ 5).1.active = true) ∧
    ((0 : Int) < 10 ∧ (0 : Int) ≤ 0 ∧
      (detectTrigger 10 0 49 ⟨true, 3⟩ 0).1.active = false) :=
  ⟨⟨by decide, by decide,
     c9_threshold_priority.1 10 0 49 5 ⟨false, 0⟩ (by decide) (by decide)⟩,
   ⟨by decide,
     c9_threshold_priority.2.1 10 0 49 5 ⟨false, 0⟩ (by decide) (by decide)⟩,
   ⟨by decide, by decide,
     c9_threshold_priority.2.2 10 0 49 0 ⟨true, 3⟩ (by decide) (by decide)
       (by decide)⟩⟩

/-- C4: Concrete trace: with `low = 80`, `high = 100`, `pulsesToSkip = 1`,
starting from `active = false, pulseCount = 0`, the samples
`[50, 120, 50, 120, 50, 120]` produce no output through the third sample, the
reported rising edge `0` exactly on the fourth sample, the reported falling
edge `1` exactly on the fifth, and nothing on the sixth. -/
theorem c4_concrete_trace :
    runDetect 80 100 1 ⟨false, 0⟩ [50, 120, 50] = (⟨false, 1⟩, []) ∧
    runDetect 80 100 1 ⟨false, 0⟩ [50, 120, 50, 120] = (⟨true, 2⟩, [0]) ∧
    runDetect 80 100 1 ⟨false, 0⟩ [50, 120, 50, 120, 50] = (⟨false, 0⟩, [0, 1]) ∧
    runDetect 80 100 1 ⟨false, 0⟩ [50, 120, 50, 120, 50, 120] =
      (⟨true, 1⟩, [0, 1]) := by
  refine ⟨?_, ?_, ?_, ?_⟩ <;> decide

/-- With `pulsesToSkip = 0`, a run from any state satisfying the reachable
invariant (`active → 1 ≤ count`, `¬active → count = 0`) reports one edge per
physical state flip. -/
theorem runDetect_skip0_length (low high : Int) :
    ∀ (samples : List Int) (s : TrigState),
      (s.active = true → 1 ≤ s.count) → (s.active = false → s.count = 0) →
      ((runDetect low high 0 s samples).2).length =
        countFlips low high s.active samples := by
  intro samples
  induction samples with
  | nil => intro s _ _; rfl
  | cons v vs ih =>
    intro s h1 h2
    by_cases h : nextState low high s.active v = s.active
    · simp only [runDetect, countFlips, detect_idle low high 0 s v h, h,
        if_pos, List.nil_append]
      simpa using ih s h1 h2
    · cases hb : nextState low high s.active v with
      | false =>
        have ha : s.active = true := by
          cases hsa : s.active
          · exact absurd (hb.trans hsa.symm) h
          · rfl
        have hc : s.count > 0 := by have := h1 ha; omega
        have hb' : nextState low high true v = false := ha ▸ hb
        have hrec := ih ⟨false, 0⟩ (by simp) (by simp)
        simp only at hrec
        simp only [runDetect, countFlips,
          detect_fall_emit low high 0 s v hb ha hc, ha, hb',
          List.length_append, List.length_cons, List.length_nil]
        simp [hb', hrec]
      | true =>
        have ha : s.active = false := by
          cases hsa : s.active
          · rfl
          · exact absurd (hb.trans hsa.symm) h
        have hc : s.count + 1 > 0 := by have := h2 ha; omega
        have hb' : nextState low high false v = true := ha ▸ hb
        have hrec := ih ⟨true, s.count + 1⟩
          (fun _ => by show (1 : Int) ≤ s.count + 1; have := h2 ha; omega)
          (by intro hf; simp at hf)
        simp only at hrec
        simp only [runDetect, countFlips,
          detect_rise_emit low high 0 s v hb ha hc, ha, hb',
          List.length_append, List.length_cons, List.length_nil]
        simp [hb', hrec]

/-- C2: Decimation: an evaluation of `detectTrigger` emits output exactly when
the hysteresis state flips and the relevant running count (the incremented
counter on a rising edge, the current counter on a falling edge) is strictly
above the skip threshold — in particular nothing is ever emitted while that
count is `≤ pulsesToSkip`; and with `pulsesToSkip = 0`, starting from
`active = false, pulseCount = 0`, every physical state flip produces exactly
one reported edge. -/
theorem c2_decimation :
    (∀ low high skip val (s : TrigState),
      (detectTrigger low high skip s val).2 ≠ [] ↔
        (nextState low high s.active val ≠ s.active ∧
          (if nextState low high s.active val = true then s.count + 1 > skip
           else s.count > skip))) ∧
    (∀ low high (samples : List Int),
      ((runDetect low high 0 ⟨false, 0⟩ samples).2).length =
        countFlips low high false samples) := by
  constructor
  · intro low high skip val s
    by_cases h : nextState low high s.active val = s.active
    · simp [detect_idle low high skip s val h, h]
    · cases hb : nextState low high s.active val with
      | false =>
        have ha : s.active = true := by
          cases hsa : s.active
          · exact absurd (hb.trans hsa.symm) h
          · rfl
        by_cases hc : s.count > skip
        · simp [detect_fall_emit low high skip s val hb ha hc, h, ha, hb, hc]
        · simp [detect_fall_skip low high skip s val hb ha hc, h, ha, hb, hc]
      | true =>
        have ha : s.active = false := by
          cases hsa : s.active
          · rfl
          · exact absurd (hb.trans hsa.symm) h
        by_cases hc : s.count + 1 > skip
        · simp [detect_rise_emit low high skip s val hb ha hc, h, ha, hb, hc]
        · simp [detect_rise_skip low high skip s val hb ha hc, h, ha, hb, hc]
  · intro low high samples
    exact runDetect_skip0_length low high samples ⟨false, 0⟩
      (by simp) (by simp)

theorem c2_decimation_witness :
    ((detectTrigger 80 100 49 ⟨false, 5⟩ 120).2 ≠ [] ↔
      (nextState 80 100 false 120 ≠ false ∧
        (if nextState 80 100 false 120 = true then (5 : Int) + 1 > 49
         else (5 : Int) > 49))) ∧
    ((runDetect 80 100 0 ⟨false, 0⟩ [50, 120, 50]).2).length =
      countFlips 80 100 false [50, 120, 50] :=
  ⟨c2_decimation.1 80 100 49 120 ⟨false, 5⟩,
   c2_decimation.2 80 100 [50, 120, 50]⟩

/-- C3: The pulse counter is reset (in particular, ever decreased) only by a
reported falling edge: a decrease implies the state was active, the hysteresis
result flipped to `false`, the counter exceeded the skip threshold, the line
`1` was printed and the counter became `0`; a reported falling edge resets to
`0`; a skipped falling edge leaves the counter untouched and prints nothing;
a rising edge always increments; and an idle sample leaves it unchanged — so
the counter accumulates across skipped rising/falling pairs and counts pulses
since the last reported falling edge. -/
theorem c3_counter_reset :
    (∀ low high skip val (s : TrigState),
      (detectTrigger low high skip s val).1.count < s.count →
        s.active = true ∧ nextState low high s.active val = false ∧
          s.count > skip ∧ (detectTrigger low high skip s val).1.count = 0 ∧
          (detectTrigger low high skip s val).2 = [1]) ∧
    (∀ low high skip val (s : TrigState), s.active = true →
      nextState low high s.active val = false → s.count > skip →
        (detectTrigger low high skip s val).1.count = 0 ∧
        (detectTrigger low high skip s val).2 = [1]) ∧
    (∀ low high skip val (s : TrigState), s.active = true →
      nextState low high s.active val = false → ¬ s.count > skip →
        (detectTrigger low high skip s val).1.count = s.count ∧
        (detectTrigger low high skip s val).2 = []) ∧
    (∀ low high skip val (s : TrigState), s.active = false →
      nextState low high s.active val = true →
        (detectTrigger low high skip s val).1.count = s.count + 1) ∧
    (∀ low high skip val (s : TrigState),
      nextState low high s.active val = s.active →
        (detectTrigger low high skip s val).1.count = s.count) := by
  refine ⟨?_, ?_, ?_, ?_, ?_⟩
  · intro low high skip val s hlt
    by_cases h : nextState low high s.active val = s.active
    · rw [detect_idle low high skip s val h] at hlt
      exact absurd hlt (by simp)
    · cases hb : nextState low high s.active val with
      | false =>
        have ha : s.active = true := by
          cases hsa : s.active
          · exact absurd (hb.trans hsa.symm) h
          · rfl
        by_cases hc : s.count > skip
        · exact ⟨ha, rfl, hc,
            by rw [detect_fall_emit low high skip s val hb ha hc],
            by rw [detect_fall_emit low high skip s val hb ha hc]⟩
        · rw [detect_fall_skip low high skip s val hb ha hc] at hlt
          exact absurd hlt (by simp)
      | true =>
        have ha : s.active = false := by
          cases hsa : s.active
          · rfl
          · exact absurd (hb.trans hsa.symm) h
        by_cases hc : s.count + 1 > skip
        · rw [detect_rise_emit low high skip s val hb ha hc] at hlt
          simp only at hlt
          omega
        · rw [detect_rise_skip low high skip s val hb ha hc] at hlt
          simp only at hlt
          omega
  · intro low high skip val s ha hb hc
    rw [detect_fall_emit low high skip s val hb ha hc]
    exact ⟨rfl, rfl⟩
  · intro low high skip val s ha hb hc
    rw [detect_fall_skip low high skip s val hb ha hc]
    exact ⟨rfl, rfl⟩
  · intro low high skip val s ha hb
    by_cases hc : s.count + 1 > skip
    · rw [detect_rise_emit low high skip s val hb ha hc]
    · rw [detect_rise_skip low high skip s val hb ha hc]
  · intro low high skip val s h
    rw [detect_idle low high skip s val h]

theorem c3_counter_reset_witness :
    (((detectTrigger 80 100 1 ⟨true, 2⟩ 50).1.count < 2) ∧
      (true = true ∧ nextState 80 100 true 50 = false ∧ (2 : Int) > 1 ∧
        (detectTrigger 80 100 1 ⟨true, 2⟩ 50).1.count = 0 ∧
        (detectTrigger 80 100 1 ⟨true, 2⟩ 50).2 = [1])) ∧
    ((detectTrigger 80 100 1 ⟨true, 1⟩ 50).1.count = 1 ∧
      (detectTrigger 80 100 1 ⟨true, 1⟩ 50).2 = []) ∧
    (detectTrigger 80 100 1 ⟨false, 1⟩ 120).1.count = 1 + 1 ∧
    (detectTrigger 80 100 1 ⟨true, 2⟩ 90).1.count = 2 :=
  ⟨⟨by decide, c3_counter_reset.1 80 100 1 50 ⟨true, 2⟩ (by decide)⟩,
   c3_counter_reset.2.2.1 80 100 1 50 ⟨true, 1⟩ rfl (by decide) (by decide),
   c3_counter_reset.2.2.2.1 80 100 1 120 ⟨false, 1⟩ rfl (by decide),
   c3_counter_reset.2.2.2.2 80 100 1 90 ⟨true, 2⟩ (by decide)⟩

/-! ## Command parsing (`setTriggerLevels`, lines 70-92) -/

/-- C `atoi` applied to digits: accumulate decimal digits, stop at the first
non-digit. -/
def atoiNum : List Char → Int → Int
  | [], acc => acc
  | c :: rest, acc =>
    if 48 ≤ c.toNat ∧ c.toNat ≤ 57 then
      atoiNum rest (acc * 10 + ((c.toNat : Int) - 48))
    else acc

/-- C `atoi`: skip leading whitespace, accept an optional sign, convert the
following digit run; yields `0` when no digits are present (best-effort, no
error reporting). -/
def atoi (s : List Char) : Int :=
  match s.dropWhile (fun c => c == ' ' || c == '\t' || c == '\n' ||
      c == Char.ofNat 11 || c == Char.ofNat 12 || c == '\r') with
  | '-' :: rest => - atoiNum rest 0
  | '+' :: rest => atoiNum rest 0
  | t => atoiNum t 0

/-- The C string starting at index `i` of the command buffer: the characters
up to (excluding) the first NUL. -/
def cstrFrom (buf : List Char) (i : Nat) : List Char :=
  (buf.drop i).takeWhile (fun c => c != nul)

/-- Lines 72-74 / 83-85: `while (*p != 0 && *p == ' ') ++p;`.  Reads beyond
the buffer yield NUL (`getD`), which stops the loop; `fuel` bounds the walk
and is always chosen large enough (`MAX_CMD_LEN`) never to bind first. -/
def skipSpaces (buf : List Char) : Nat → Nat → Nat
  | 0, p => p
  | fuel + 1, p =>
    if buf.getD p nul ≠ nul ∧ buf.getD p nul = ' ' then
      skipSpaces buf fuel (p + 1)
    else p

/-- Lines 76-78 / 87-89: `while (*q != 0 && *q != ' ') ++q;`. -/
def tokenEnd (buf : List Char) : Nat → Nat → Nat
  | 0, q => q
  | fuel + 1, q =>
    if buf.getD q nul ≠ nul ∧ buf.getD q nul ≠ ' ' then
      tokenEnd buf fuel (q + 1)
    else q

/-- Lines 70-92, `setTriggerLevels`: starting at `&command[1]`, skip spaces,
terminate the first token with NUL (`*q = 0`, modelled by `List.set`), convert
it with `atoi`; then repeat from `q + 1` for the second token.  Returns the
mutated buffer and the two values passed to `eeprom_write_word`. -/
def setTriggerLevels (buf : List Char) : List Char × Int × Int :=
  let p := skipSpaces buf MAX_CMD_LEN 1
  let q := tokenEnd buf MAX_CMD_LEN (p + 1)
  let buf1 := buf.set q nul
  let low := atoi (cstrFrom buf1 p)
  let p2 := skipSpaces buf1 MAX_CMD_LEN (q + 1)
  let q2 := tokenEnd buf1 MAX_CMD_LEN (p2 + 1)
  let buf2 := buf1.set q2 nul
  (buf2, low, atoi (cstrFrom buf2 p2))

/-! ## EEPROM calibration slots (lines 62-64, 80, 91, 97-104) -/

/-- `eeprom_write_word` value conversion: the C `int` argument is truncated
to a 16-bit word. -/
def eeprom_write_word (v : Int) : Nat := (v % 65536).toNat

/-- `(int)eeprom_read_word`: the stored 16-bit word read back as a 16-bit
two's-complement `int`. -/
def eeprom_read_word (n : Nat) : Int :=
  if n < 32768 then (n : Int) else (n : Int) - 65536

/-! ## Device state and the command interpreter (`doCommand`, lines 153-198) -/

/-- The firmware's process-wide mutable state: command buffer and index
(lines 42-43), serial `mode` (line 48), `dataOutput` (line 54), the two EEPROM
word slots, the trigger levels held in RAM (lines 57-58), and the trigger
detector state (lines 59-60).  `cmdComplete` is always `false` outside
`doCommand` and is folded into the read loop below. -/
structure Device where
  command : List Char
  inCount : Nat
  mode : Char
  dataOutput : Char
  eeLow : Nat
  eeHigh : Nat
  triggerLevelLow : Int
  triggerLevelHigh : Int
  triggerState : Bool
  counter : Int
  deriving DecidableEq, Repr

/-- Lines 156-173: the byte-accumulation loop of `doCommand`.  Consumes input
bytes until a terminator (`\n` or `\r`); a terminator NUL-terminates the line
and `Serial.println()` emits a newline; a data byte is buffered and echoed
only while `inCount < MAX_CMD_LEN - 1`, otherwise silently dropped.  Returns
`none` when the input stream is exhausted first (the firmware busy-waits
forever). -/
def readCmd : List Char → Nat → String → List Char →
    Option (List Char × String × List Char)
  | _, _, _, [] => none
  | buf, inCount, echo, c :: rest =>
    if c = '\n' ∨ c = '\r' then some (buf.set inCount nul, echo.push '\n', rest)
    else if inCount < MAX_CMD_LEN - 1 then
      readCmd (buf.set inCount c) (inCount + 1) (echo.push c) rest
    else readCmd buf inCount echo rest

/-- Lines 97-104, `readTriggerLevels`: load both RAM trigger levels from the
EEPROM slots and print them. -/
def readTriggerLevels (d : Device) : Device × String :=
  ({ d with triggerLevelLow := eeprom_read_word d.eeLow,
            triggerLevelHigh := eeprom_read_word d.eeHigh },
   "Trigger levels: " ++ toString (eeprom_read_word d.eeLow) ++ " " ++
     toString (eeprom_read_word d.eeHigh) ++ "\n")

/-- Lines 176-197: the `switch (command[0])` dispatch of `doCommand` on the
completed line `buf`, followed by the unconditional cleanup
`command[0] = 0; inCount = 0`.  Returns the new device state and the output
produced by the dispatched command. -/
def dispatch (d : Device) (buf : List Char) : Device × String :=
  if buf.getD 0 nul = 'D' then
    ({ d with mode := 'D', dataOutput := 'R',
              command := buf.set 0 nul, inCount := 0 }, "")
  else if buf.getD 0 nul = 'T' then
    ({ d with mode := 'D', dataOutput := 'T',
              command := buf.set 0 nul, inCount := 0 }, "")
  else if buf.getD 0 nul = 'S' then
    let r := setTriggerLevels buf
    let d1 : Device := { d with command := r.1,
                                eeLow := eeprom_write_word r.2.1,
                                eeHigh := eeprom_write_word r.2.2 }
    let rl := readTriggerLevels d1
    ({ rl.1 with command := rl.1.command.set 0 nul, inCount := 0 }, rl.2)
  else ({ d with command := buf.set 0 nul, inCount := 0 }, "")

/-- Lines 153-198, `doCommand`: print the `>` prompt, accumulate a full line
from the input, dispatch it, clean up.  Returns the new state, the unread
input, and everything printed; `none` when the line never completes. -/
def doCommand (d : Device) (input : List Char) :
    Option (Device × List Char × String) :=
  match readCmd d.command d.inCount "" input with
  | none => none
  | some (buf, echo, rest) =>
    some ((dispatch d buf).1, rest, ">" ++ echo ++ (dispatch d buf).2)

/-! ## Main loop (`loop`, lines 220-248) -/

/-- The output of the `Serial.println` calls of `detectTrigger`, as text. -/
def trigOut : List Nat → String
  | [] => ""
  | n :: rest => toString n ++ "\n" ++ trigOut rest

/-- Lines 232-247: the measurement half of `loop`, entered only while
`mode = 'D'`: read one analog sample, then either print it raw
(`dataOutput = 'R'`) or feed it to `detectTrigger` (`dataOutput = 'T'`).
Returns `none` when no further sample is modelled. -/
def measurePhase (d : Device) (samples : List Int) :
    Option (Device × List Int × String) :=
  match samples with
  | [] => none
  | v :: vs =>
    if d.dataOutput = 'R' then some (d, vs, toString v ++ "\n")
    else if d.dataOutput = 'T' then
      some ({ d with
                triggerState := (detectTrigger d.triggerLevelLow
                  d.triggerLevelHigh pulsesToSkip
                  ⟨d.triggerState, d.counter⟩ v).1.active,
                counter := (detectTrigger d.triggerLevelLow
                  d.triggerLevelHigh pulsesToSkip
                  ⟨d.triggerState, d.counter⟩ v).1.count },
            vs,
            trigOut (detectTrigger d.triggerLevelLow d.triggerLevelHigh
              pulsesToSkip ⟨d.triggerState, d.counter⟩ v).2)
    else some (d, vs, "")

/-- Lines 220-248, one iteration of `loop`: in Command mode run `doCommand`;
in Data mode poll at most one pending serial byte and switch to Command mode
on `'C'` (any other byte is discarded); afterwards, if (still or newly) in
Data mode, run the measurement phase.  Returns the new state, the unread
serial input, the unread samples, and the output of the iteration. -/
def loopStep (d : Device) (input : List Char) (samples : List Int) :
    Option (Device × List Char × List Int × String) :=
  match (if d.mode = 'C' then doCommand d input
         else if d.mode = 'D' then
           match input with
           | [] => some (d, [], "")
           | c :: rest =>
             if c = 'C' then some ({ d with mode := 'C' }, rest, "")
             else some (d, rest, "")
         else some (d, input, "")) with
  | none => none
  | some (d1, rest, out1) =>
    if d1.mode = 'D' then
      match measurePhase d1 samples with
      | none => none
      | some (d2, vs, out2) => some (d2, rest, vs, out1 ++ out2)
    else some (d1, rest, samples, out1)

/-- The device state right after `setup()` (lines 203-215): Data+Trigger
mode, empty command buffer, trigger state cleared; the EEPROM slots are taken
as erased-to-zero here (their startup content is irrelevant to the claims
below). -/
def bootDevice : Device :=
  { command := List.replicate MAX_CMD_LEN nul, inCount := 0, mode := 'D',
    dataOutput := 'T', eeLow := 0, eeHigh := 0, triggerLevelLow := 0,
    triggerLevelHigh := 0, triggerState := false, counter := 0 }

/-- The boot state after the host has sent `'C'`: Command mode. -/
def cmdDevice : Device := { bootDevice with mode := 'C' }

/-- C5: S-command parsing: dispatching `S 85 90` stores calibration
`{low: 85, high: 90}` (both in the EEPROM slots and, after the immediate
read-back, in RAM); `S   85   90` with extra spaces gives the identical
result; `S abc 90` gives `low = 0` (best-effort `atoi` failure, no error
reported) and `high = 90`. -/
theorem c5_s_command_parsing :
    (Option.map (fun r => (r.1.eeLow, r.1.eeHigh, r.1.triggerLevelLow,
        r.1.triggerLevelHigh)) (doCommand cmdDevice ("S 85 90\n".toList)) =
      some (85, 90, 85, 90)) ∧
    (Option.map (fun r => (r.1.eeLow, r.1.eeHigh, r.1.triggerLevelLow,
        r.1.triggerLevelHigh)) (doCommand cmdDevice ("S   85   90\n".toList)) =
      some (85, 90, 85, 90)) ∧
    (Option.map (fun r => (r.1.eeLow, r.1.eeHigh, r.1.triggerLevelLow,
        r.1.triggerLevelHigh)) (doCommand cmdDevice ("S abc 90\n".toList)) =
      some (0, 90, 0, 90)) := by
  refine ⟨?_, ?_, ?_⟩ <;> decide

/-- The persistence effect of `setTriggerLevels` (lines 80 and 91) on the two
EEPROM slots, for an already-parsed pair of values. -/
def storeTriggerLevels (d : Device) (low high : Int) : Device :=
  { d with eeLow := eeprom_write_word low, eeHigh := eeprom_write_word high }

/-- A value representable in a 16-bit `int` round-trips through the EEPROM
word interface. -/
theorem int16_roundtrip (v : Int) (h1 : -32768 ≤ v) (h2 : v ≤ 32767) :
    eeprom_read_word (eeprom_write_word v) = v := by
  unfold eeprom_read_word eeprom_write_word
  split_ifs with h <;> omega

/-- C8: Calibration round-trip: storing any threshold pair representable in
the 16-bit storage slots and loading it back returns exactly the stored pair
(in particular `{low: 85, high: 90}`, see the witness). -/
theorem c8_calibration_roundtrip :
    ∀ (d : Device) (low high : Int),
      -32768 ≤ low → low ≤ 32767 → -32768 ≤ high → high ≤ 32767 →
      (readTriggerLevels (storeTriggerLevels d low high)).1.triggerLevelLow =
        low ∧
      (readTriggerLevels (storeTriggerLevels d low high)).1.triggerLevelHigh =
        high := by
  intro d low high h1 h2 h3 h4
  exact ⟨int16_roundtrip low h1 h2, int16_roundtrip high h3 h4⟩

theorem c8_calibration_roundtrip_witness :
    (-32768 : Int) ≤ 85 ∧ (85 : Int) ≤ 32767 ∧
    (-32768 : Int) ≤ 90 ∧ (90 : Int) ≤ 32767 ∧
    (readTriggerLevels (storeTriggerLevels bootDevice 85 90)).1.triggerLevelLow
      = 85 ∧
    (readTriggerLevels (storeTriggerLevels bootDevice 85 90)).1.triggerLevelHigh
      = 90 :=
  ⟨by decide, by decide, by decide, by decide,
   (c8_calibration_roundtrip bootDevice 85 90 (by decide) (by decide)
     (by decide) (by decide)).1,
   (c8_calibration_roundtrip bootDevice 85 90 (by decide) (by decide)
     (by decide) (by decide)).2⟩

/-! ## Frame lemmas for the command interpreter and the loop -/

theorem string_append_empty (s : String) : s ++ "" = s := by
  cases s with
  | mk data =>
    show String.mk (data ++ []) = String.mk data
    rw [List.append_nil]

theorem string_empty_append (s : String) : "" ++ s = s := rfl

theorem getD_set_zero (l : List Char) : (l.set 0 nul).getD 0 nul = nul := by
  cases l <;> rfl

/-- Every dispatch branch ends with `command[0] = 0; inCount = 0`. -/
theorem dispatch_clears (d : Device) (buf : List Char) :
    (dispatch d buf).1.command.getD 0 nul = nul ∧
    (dispatch d buf).1.inCount = 0 := by
  unfold dispatch
  split_ifs <;> exact ⟨getD_set_zero _, rfl⟩

/-- No dispatch branch touches the trigger detector state. -/
theorem dispatch_trig (d : Device) (buf : List Char) :
    (dispatch d buf).1.triggerState = d.triggerState ∧
    (dispatch d buf).1.counter = d.counter := by
  unfold dispatch readTriggerLevels
  split_ifs <;> exact ⟨rfl, rfl⟩

/-- Shape of a completed `doCommand` in terms of the read line. -/
theorem doCommand_eq (d : Device) (input buf : List Char) (echo : String)
    (rest : List Char)
    (hrc : readCmd d.command d.inCount "" input = some (buf, echo, rest)) :
    doCommand d input =
      some ((dispatch d buf).1, rest, ">" ++ echo ++ (dispatch d buf).2) := by
  unfold doCommand
  rw [hrc]

/-- `doCommand` leaves `triggerState` and `counter` untouched. -/
theorem doCommand_trig (d : Device) (input : List Char)
    (r : Device × List Char × String) (hr : doCommand d input = some r) :
    r.1.triggerState = d.triggerState ∧ r.1.counter = d.counter := by
  unfold doCommand at hr
  cases hrc : readCmd d.command d.inCount "" input with
  | none => rw [hrc] at hr; exact absurd hr (by simp)
  | some t =>
    obtain ⟨buf, echo, rest⟩ := t
    rw [hrc] at hr
    simp only [Option.some.injEq] at hr
    rw [← hr]
    exact dispatch_trig d buf

/-- The measurement phase only touches the trigger detector state (and
consumes one sample): every other field is framed. -/
theorem measurePhase_frame (d : Device) (samples : List Int)
    (r : Device × List Int × String) (hr : measurePhase d samples = some r) :
    r.1.mode = d.mode ∧ r.1.dataOutput = d.dataOutput ∧
    r.1.triggerLevelLow = d.triggerLevelLow ∧
    r.1.triggerLevelHigh = d.triggerLevelHigh ∧
    r.1.eeLow = d.eeLow ∧ r.1.eeHigh = d.eeHigh ∧
    r.1.command = d.command ∧ r.1.inCount = d.inCount := by
  unfold measurePhase at hr
  cases samples with
  | nil => exact absurd hr (by simp)
  | cons v vs =>
    simp only [] at hr
    split_ifs at hr <;>
      (simp only [Option.some.injEq] at hr; rw [← hr];
       exact ⟨rfl, rfl, rfl, rfl, rfl, rfl, rfl, rfl⟩)

/-- C6: Command-line accumulation and cleanup: bytes accumulate until `\n` or
`\r`; once the index has reached `MAX_CMD_LEN - 1` further non-terminator
bytes are dropped without buffering or echo, while a terminator still
completes the (truncated) line; after any dispatch the buffer's first cell is
NUL (the C string is empty) and the index is 0; an unrecognized first letter
changes nothing except that reset and produces no output beyond the prompt
and the echo. -/
theorem c6_cmd_accumulation :
    (∀ (buf : List Char) (inCount : Nat) (echo : String) (input : List Char)
        (c : Char), ¬ (c = '\n' ∨ c = '\r') → MAX_CMD_LEN - 1 ≤ inCount →
      readCmd buf inCount echo (c :: input) = readCmd buf inCount echo input) ∧
    (∀ (buf : List Char) (inCount : Nat) (echo : String) (input : List Char),
      readCmd buf inCount echo ('\n' :: input) =
        some (buf.set inCount nul, echo.push '\n', input)) ∧
    (∀ (d : Device) (input : List Char) (r : Device × List Char × String),
      doCommand d input = some r →
      r.1.command.getD 0 nul = nul ∧ r.1.inCount = 0) ∧
    (∀ (d : Device) (input buf : List Char) (echo : String)
        (rest : List Char),
      readCmd d.command d.inCount "" input = some (buf, echo, rest) →
      buf.getD 0 nul ≠ 'D' → buf.getD 0 nul ≠ 'T' → buf.getD 0 nul ≠ 'S' →
      doCommand d input =
        some ({ d with command := buf.set 0 nul, inCount := 0 }, rest,
          ">" ++ echo)) := by
  refine ⟨?_, ?_, ?_, ?_⟩
  · intro buf inCount echo input c hc hcount
    simp only [readCmd]
    rw [if_neg hc, if_neg (by omega)]
  · intro buf inCount echo input
    simp [readCmd]
  · intro d input r hr
    unfold doCommand at hr
    cases hrc : readCmd d.command d.inCount "" input with
    | none => rw [hrc] at hr; exact absurd hr (by simp)
    | some t =>
      obtain ⟨buf, echo, rest⟩ := t
      rw [hrc] at hr
      simp only [Option.some.injEq] at hr
      rw [← hr]
      exact dispatch_clears d buf
  · intro d input buf echo rest hrc hD hT hS
    rw [doCommand_eq d input buf echo rest hrc]
    have hd : dispatch d buf =
        ({ d with command := buf.set 0 nul, inCount := 0 }, "") := by
      unfold dispatch
      rw [if_neg hD, if_neg hT, if_neg hS]
    rw [hd, string_append_empty]

theorem c6_cmd_accumulation_witness :
    (¬ (('X' : Char) = '\n' ∨ ('X' : Char) = '\r') ∧ MAX_CMD_LEN - 1 ≤ 79 ∧
      readCmd (List.replicate MAX_CMD_LEN nul) 79 "" ['X', '\n'] =
        readCmd (List.replicate MAX_CMD_LEN nul) 79 "" ['\n']) ∧
    (readCmd cmdDevice.command cmdDevice.inCount "" ['X', '\n'] =
        some (((List.replicate MAX_CMD_LEN nul).set 0 'X').set 1 nul,
          "X\n", []) ∧
      doCommand cmdDevice ['X', '\n'] =
        some ({ cmdDevice with
                  command := (((List.replicate MAX_CMD_LEN nul).set 0
                    'X').set 1 nul).set 0 nul,
                  inCount := 0 }, [], ">" ++ "X\n")) :=
  ⟨⟨by decide, by decide,
    c6_cmd_accumulation.1 (List.replicate MAX_CMD_LEN nul) 79 "" ['\n'] 'X'
      (by decide) (by decide)⟩,
   ⟨by decide,
    c6_cmd_accumulation.2.2.2 cmdDevice ['X', '\n']
      (((List.replicate MAX_CMD_LEN nul).set 0 'X').set 1 nul) "X\n" []
      (by decide) (by decide) (by decide) (by decide)⟩⟩

/-- C7: Mode-switch framing: in Data mode a pending `'C'` byte switches the
mode to Command with no sample consumed and no output, leaving the trigger
detector state (and everything else) untouched; `doCommand` — and hence any
stay in Command mode, including the `D`/`T` commands returning to Data mode —
never changes `triggerState` or `counter`; and a loop iteration that starts
and ends in Command mode also consumes no sample. -/
theorem c7_mode_switch_framing :
    (∀ (d : Device) (rest : List Char) (samples : List Int), d.mode = 'D' →
      loopStep d ('C' :: rest) samples =
        some ({ d with mode := 'C' }, rest, samples, "")) ∧
    (∀ (d : Device) (input : List Char) (r : Device × List Char × String),
      doCommand d input = some r →
      r.1.triggerState = d.triggerState ∧ r.1.counter = d.counter) ∧
    (∀ (d : Device) (input : List Char) (samples : List Int)
        (r : Device × List Char × List Int × String), d.mode = 'C' →
      loopStep d input samples = some r → r.1.mode = 'C' →
      r.1.triggerState = d.triggerState ∧ r.1.counter = d.counter ∧
        r.2.2.1 = samples) := by
  refine ⟨?_, ?_, ?_⟩
  · intro d rest samples hm
    unfold loopStep
    rw [hm]
    simp
  · exact doCommand_trig
  · intro d input samples r hm hstep hmode
    unfold loopStep at hstep
    rw [hm, if_pos rfl] at hstep
    cases hdc : doCommand d input with
    | none => rw [hdc] at hstep; exact absurd hstep (by simp)
    | some t =>
      obtain ⟨d1, rest, out1⟩ := t
      rw [hdc] at hstep
      simp only [] at hstep
      by_cases hd1 : d1.mode = 'D'
      · rw [if_pos hd1] at hstep
        cases hmp : measurePhase d1 samples with
        | none => rw [hmp] at hstep; exact absurd hstep (by simp)
        | some u =>
          obtain ⟨d2, vs, out2⟩ := u
          rw [hmp] at hstep
          simp only [Option.some.injEq] at hstep
          rw [← hstep] at hmode
          have := (measurePhase_frame d1 samples (d2, vs, out2) hmp).1
          simp only [] at hmode this
          rw [this, hd1] at hmode
          exact absurd hmode (by decide)
      · rw [if_neg hd1] at hstep
        simp only [Option.some.injEq] at hstep
        rw [← hstep]
        have ht := doCommand_trig d input (d1, rest, out1) hdc
        exact ⟨ht.1, ht.2, rfl⟩

theorem c7_mode_switch_framing_witness :
    bootDevice.mode = 'D' ∧
    loopStep bootDevice ['C'] [512] =
      some ({ bootDevice with mode := 'C' }, [], [512], "") :=
  ⟨rfl, c7_mode_switch_framing.1 bootDevice [] [512] rfl⟩

/-- C10: In Data mode a loop iteration consumes at most one pending byte, and
a consumed byte other than `'C'` is silently discarded: the iteration is
exactly the plain measurement iteration (same state, same output) with the
byte removed from the input; no byte is consumed when none is pending; and
the measurement phase never changes the operating mode, the data-output mode,
the RAM calibration thresholds or the EEPROM slots — so sending `D`, `T` or
`S` while in Data mode does nothing. -/
theorem c10_data_mode_discard :
    (∀ (d : Device) (c : Char) (rest : List Char) (samples : List Int),
      d.mode = 'D' → c ≠ 'C' →
      loopStep d (c :: rest) samples =
        Option.map (fun r => (r.1, rest, r.2.1, r.2.2))
          (measurePhase d samples)) ∧
    (∀ (d : Device) (samples : List Int), d.mode = 'D' →
      loopStep d [] samples =
        Option.map (fun r => (r.1, ([] : List Char), r.2.1, r.2.2))
          (measurePhase d samples)) ∧
    (∀ (d : Device) (samples : List Int)
        (r : Device × List Int × String), measurePhase d samples = some r →
      r.1.mode = d.mode ∧ r.1.dataOutput = d.dataOutput ∧
      r.1.triggerLevelLow = d.triggerLevelLow ∧
      r.1.triggerLevelHigh = d.triggerLevelHigh ∧
      r.1.eeLow = d.eeLow ∧ r.1.eeHigh = d.eeHigh) := by
  refine ⟨?_, ?_, ?_⟩
  · intro d c rest samples hm hc
    unfold loopStep
    cases hmp : measurePhase d samples with
    | none => simp [hm, hc, hmp]
    | some u =>
      obtain ⟨d2, vs, out2⟩ := u
      simp [hm, hc, hmp, string_empty_append]
  · intro d samples hm
    unfold loopStep
    cases hmp : measurePhase d samples with
    | none => simp [hm, hmp]
    | some u =>
      obtain ⟨d2, vs, out2⟩ := u
      simp [hm, hmp, string_empty_append]
  · intro d samples r hr
    have h := measurePhase_frame d samples r hr
    exact ⟨h.1, h.2.1, h.2.2.1, h.2.2.2.1, h.2.2.2.2.1, h.2.2.2.2.2.1⟩

theorem c10_data_mode_discard_witness :
    bootDevice.mode = 'D' ∧ ('X' : Char) ≠ 'C' ∧
    loopStep bootDevice ['X'] [512] =
      Option.map (fun r => (r.1, ([] : List Char), r.2.1, r.2.2))
        (measurePhase bootDevice [512]) :=
  ⟨rfl, by decide, c10_data_mode_discard.1 bootDevice 'X' [] [512] rfl
    (by decide)⟩

end LightPulseTrigger
